import Mathlib

set_option autoImplicit false

/-!
Shallow embedding of `src/dp-alpha.cpp` (a minimal DRM alpha-blending test
program) and verification of its specification.

The program has two components:
* `DrmBuffer` — a dumb-buffer pixel surface: four-stage acquisition
  (create dumb buffer, add framebuffer, map-dumb descriptor, mmap),
  guarded teardown, and a chessboard fill.
* `DrmDevice` — the output controller: topology discovery (resources,
  connector scan, mode, encoder, CRTC) and teardown.

Kernel interactions are modelled as events; each fallible kernel call gets a
Boolean (or `Option`-valued) environment saying whether it succeeds, and the
embedded functions return the list of calls issued, in order, together with
the outcome.
-/

deriving instance DecidableEq for Except

namespace DpAlpha

/-- Kernel calls issued by `DrmBuffer` (acquisitions and releases). -/
inductive BufEv where
  | createDumb
  | addFB
  | mapDumb
  | mmap
  | destroyDumb
  | rmFB
  | munmap
  deriving DecidableEq, Repr

/-- Failure kinds of the four-stage surface acquisition. -/
inductive BufErr where
  | allocError
  | registerError
  | mapDescriptorError
  | mmapError
  deriving DecidableEq, Repr

/-- Embeds `DrmBuffer::create` (src/dp-alpha.cpp:64-113).  The four Booleans
say whether each kernel call (DRM_IOCTL_MODE_CREATE_DUMB, drmModeAddFB2,
DRM_IOCTL_MODE_MAP_DUMB, mmap) succeeds.  Returns the sequence of kernel
calls issued, in program order, and the outcome: on each failure the source
releases the previously acquired sub-resources inline before throwing. -/
def DrmBuffer.create (createOk addFbOk mapOk mmapOk : Bool) :
    List BufEv × Except BufErr Unit :=
  if !createOk then
    ([.createDumb], .error .allocError)
  else if !addFbOk then
    ([.createDumb, .addFB, .destroyDumb], .error .registerError)
  else if !mapOk then
    ([.createDumb, .addFB, .mapDumb, .rmFB, .destroyDumb], .error .mapDescriptorError)
  else if !mmapOk then
    ([.createDumb, .addFB, .mapDumb, .mmap, .rmFB, .destroyDumb], .error .mmapError)
  else
    ([.createDumb, .addFB, .mapDumb, .mmap], .ok ())

/-- The value of the C macro `MAP_FAILED`, i.e. `(void *)-1`, with pointers
modelled as integers (`0` is `nullptr`). -/
def MAP_FAILED : Int := -1

/-- The fields of a `DrmBuffer` that its destructor inspects:
`_mapped` (a pointer, `none` = nullptr), `_fb_id` and `_handle`. -/
structure BufState where
  mapped : Option Int
  fb_id : Nat
  handle : Nat
  deriving DecidableEq, Repr

/-- Embeds `DrmBuffer::cleanup` (src/dp-alpha.cpp:115-124): munmap if the
mapping is non-null and not `MAP_FAILED`, remove the framebuffer if its id is
non-zero, destroy the dumb buffer if a handle was recorded. -/
def DrmBuffer.cleanup (s : BufState) : List BufEv :=
  (if s.mapped ≠ none ∧ s.mapped ≠ some MAP_FAILED then [BufEv.munmap] else []) ++
  (if s.fb_id ≠ 0 then [BufEv.rmFB] else []) ++
  (if s.handle ≠ 0 then [BufEv.destroyDumb] else [])

/-- A single 32-bit store into the word-indexed mapped buffer. -/
def store (buf : Nat → Nat) (i v : Nat) : Nat → Nat :=
  fun j => if j = i then v else buf j

/-- Embeds `DrmBuffer::fill_chessboard` (src/dp-alpha.cpp:50-61).  The mapped
buffer is a map from 32-bit-word index to pixel value; the nested loops write
`pixels[y * (_pitch / 4) + x]` for `y < _height`, `x < _width`. -/
def DrmBuffer.fill_chessboard (premultiplied : Bool) (width height pitch : Nat)
    (buf : Nat → Nat) : Nat → Nat :=
  let white : Nat := if premultiplied then 0x80808080 else 0x80ffffff
  let grey : Nat := 0xff808080
  (List.range height).foldl (fun b y =>
    (List.range width).foldl (fun b2 x =>
      store b2 (y * (pitch / 4) + x)
        (if ((x / 64) + (y / 64)) % 2 ≠ 0 then grey else white)) b) buf

/-- The sequence of (index, value) stores performed by `fill_chessboard`, in
loop order: for each row `y`, for each column `x`, a store to word
`y * (pitch / 4) + x` of the tile colour chosen by the parity of
`x / 64 + y / 64`. -/
def DrmBuffer.fillWrites (premultiplied : Bool) (width height pitch : Nat) :
    List (Nat × Nat) :=
  let white : Nat := if premultiplied then 0x80808080 else 0x80ffffff
  let grey : Nat := 0xff808080
  (List.range height).flatMap (fun y =>
    (List.range width).map (fun x =>
      (y * (pitch / 4) + x, if ((x / 64) + (y / 64)) % 2 ≠ 0 then grey else white)))

/-- Replay a list of stores over a buffer. -/
def applyWrites (ws : List (Nat × Nat)) (buf : Nat → Nat) : Nat → Nat :=
  ws.foldl (fun b iv => store b iv.1 iv.2) buf

/-- A display mode descriptor (`drmModeModeInfo`), reduced to the fields the
program reads. -/
structure ModeInfo where
  hdisplay : Nat
  vdisplay : Nat
  deriving DecidableEq, Repr

/-- A connector descriptor (`drmModeConnector`), reduced to the fields the
program reads; `connection = true` models `DRM_MODE_CONNECTED`. -/
structure Connector where
  connector_id : Nat
  connection : Bool
  modes : List ModeInfo
  encoder_id : Nat
  deriving DecidableEq, Repr

/-- An encoder descriptor (`drmModeEncoder`), reduced to the fields the
program reads. -/
structure Encoder where
  crtc_id : Nat
  possible_crtcs : Nat
  deriving DecidableEq, Repr

/-- The resource list (`drmModeRes`): connector ids and CRTC ids in the order
the kernel lists them. -/
structure Res where
  connectors : List Nat
  crtcs : List Nat
  deriving DecidableEq, Repr

/-- Connector-scan events: each `drmModeGetConnector` call (with its result)
and each `drmModeFreeConnector` call. -/
inductive ScanEv where
  | getConnector (id : Nat) (found : Option Connector)
  | freeConnector (c : Connector)
  deriving DecidableEq, Repr

/-- Failure outcomes of `DrmDevice::initialize`.  The first four are thrown
`std::runtime_error`s; the last two mark undefined behaviour the source can
reach (they are not exceptions): `nullConnectorDeref` models reading
`_connector->connection` when `drmModeGetConnector` returned null, and
`emptyModesRead` models reading `_connector->modes[0]` when the connector
advertises no mode. -/
inductive DevFail where
  | resourceQueryError
  | noDisplayError
  | encoderError
  | noCrtcError
  | nullConnectorDeref
  | emptyModesRead
  deriving DecidableEq, Repr

/-- Embeds the connector loop of `DrmDevice::initialize`
(src/dp-alpha.cpp:172-179): query each listed connector id in order, stop at
the first whose `connection` is connected, free each examined-and-discarded
descriptor.  `getConn` is the kernel's response to `drmModeGetConnector`;
a `none` response makes the source dereference a null pointer. -/
def DrmDevice.findConnector (getConn : Nat → Option Connector) :
    List Nat → List ScanEv × Except DevFail (Option Connector)
  | [] => ([], .ok none)
  | id :: rest =>
    match getConn id with
    | none => ([.getConnector id none], .error .nullConnectorDeref)
    | some c =>
      if c.connection then
        ([.getConnector id (some c)], .ok (some c))
      else
        let (t, r) := DrmDevice.findConnector getConn rest
        (.getConnector id (some c) :: .freeConnector c :: t, r)

/-- Embeds the CRTC loop of `DrmDevice::initialize`
(src/dp-alpha.cpp:195-200): return the first listed CRTC id whose index bit
is set in the encoder's `possible_crtcs` bitmask, `0` if none (leaving
`_crtc_id` at its initial `0`).  The C `1 << i` is modelled as the ideal
shift `1 <<< i` on `Nat`. -/
def DrmDevice.findCrtc (mask : Nat) : List Nat → Nat → Nat
  | [], _ => 0
  | c :: rest, i =>
    if mask &&& (1 <<< i) ≠ 0 then c else DrmDevice.findCrtc mask rest (i + 1)

/-- The topology retained by a fully constructed `DrmDevice`. -/
structure Topology where
  connector : Connector
  mode : ModeInfo
  encoder : Encoder
  crtc_id : Nat
  deriving DecidableEq, Repr

/-- The kernel's responses to the topology-discovery calls:
`drmModeGetResources`, `drmModeGetConnector`, `drmModeGetEncoder`. -/
structure DevEnv where
  resources : Option Res
  getConn : Nat → Option Connector
  getEnc : Nat → Option Encoder

/-- Embeds `DrmDevice::initialize` (src/dp-alpha.cpp:166-205): resource
query, connector scan, first-mode read, encoder lookup, CRTC resolution.
Returns the connector-scan trace and the outcome. -/
def DrmDevice.setup (env : DevEnv) : List ScanEv × Except DevFail Topology :=
  match env.resources with
  | none => ([], .error .resourceQueryError)
  | some res =>
    let (t, rc) := DrmDevice.findConnector env.getConn res.connectors
    match rc with
    | .error e => (t, .error e)
    | .ok none => (t, .error .noDisplayError)
    | .ok (some conn) =>
      match conn.modes with
      | [] => (t, .error .emptyModesRead)
      | mode :: _ =>
        match env.getEnc conn.encoder_id with
        | none => (t, .error .encoderError)
        | some enc =>
          let crtc_id :=
            if enc.crtc_id ≠ 0 then enc.crtc_id
            else DrmDevice.findCrtc enc.possible_crtcs res.crtcs 0
          if crtc_id = 0 then (t, .error .noCrtcError)
          else (t, .ok ⟨conn, mode, enc, crtc_id⟩)

/-- Teardown events of `DrmDevice`. -/
inductive DevEv where
  | freeEncoder
  | freeConnector
  | freeResources
  | closeFd
  deriving DecidableEq, Repr

/-- The fields of a `DrmDevice` that its teardown inspects (whether each
descriptor pointer is non-null). -/
structure DevState where
  encoder : Bool
  connector : Bool
  resources : Bool
  deriving DecidableEq, Repr

/-- Embeds `DrmDevice::cleanup` (src/dp-alpha.cpp:207-214): free the encoder
descriptor if held, then the connector descriptor if held, then the resource
list if held. -/
def DrmDevice.cleanup (s : DevState) : List DevEv :=
  (if s.encoder then [DevEv.freeEncoder] else []) ++
  (if s.connector then [DevEv.freeConnector] else []) ++
  (if s.resources then [DevEv.freeResources] else [])

/-- Embeds `~DrmDevice` (src/dp-alpha.cpp:144-146 with the member layout at
216-221): the destructor body runs `cleanup`, then member destructors run in
reverse declaration order; `_fd : autofd` is the first declared member, so
its destructor — which calls `::close` — runs last. -/
def DrmDevice.destructor (s : DevState) : List DevEv :=
  DrmDevice.cleanup s ++ [DevEv.closeFd]

/-- The three lines printed by `usage` (src/dp-alpha.cpp:224-230). -/
def usage_lines : List String :=
  ["Usage: dp-alpha p|s",
   "\tp: use premultiplied alpha",
   "\ts: use straight alpha"]

/-- Embeds the argument handling of `main` (src/dp-alpha.cpp:232-242):
`argc` must be exactly 2, and the convention is chosen by inspecting only
the first character `argv[1][0]`.  `args` is `argv` without the program
name; the result is `some premultiplied`, or `none` on the usage path.
An empty argument reads the terminating `NUL`, which is neither `p` nor
`s`. -/
def parse_args (args : List String) : Option Bool :=
  match args with
  | [a] =>
    match a.data with
    | 'p' :: _ => some true
    | 's' :: _ => some false
    | _ => none
  | _ => none

/-- Errors that can escape the core of the try block in `main`: topology
discovery, surface acquisition, or the bind (`drmModeSetCrtc`) call. -/
inductive CoreErr where
  | dev (e : DevFail)
  | buf (e : BufErr)
  | bindError
  deriving DecidableEq, Repr

/-- The message string carried by the exception each core failure throws, or
`none` for the undefined-behaviour markers, which throw nothing.  (The
`std::system_error` cases append the OS error description to this text in
`what()`; that suffix is independent of the single-line `Error:` format.) -/
def CoreErr.message : CoreErr → Option String
  | .dev .resourceQueryError => some "Failed to get DRM resources"
  | .dev .noDisplayError => some "No connected connector found"
  | .dev .encoderError => some "Failed to get encoder"
  | .dev .noCrtcError => some "Failed to find CRTC"
  | .dev .nullConnectorDeref => none
  | .dev .emptyModesRead => none
  | .buf .allocError => some "Failed to create dumb buffer"
  | .buf .registerError => some "Failed to add framebuffer"
  | .buf .mapDescriptorError => some "Failed to map dumb buffer"
  | .buf .mmapError => some "Failed to mmap framebuffer"
  | .bindError => some "Failed to set CRTC"

/-- The kernel's responses to every fallible call the try block of `main`
makes. -/
structure CoreEnv where
  dev : DevEnv
  createOk : Bool
  addFbOk : Bool
  mapOk : Bool
  mmapOk : Bool
  setCrtcOk : Bool

/-- Embeds the body of the try block of `main` (src/dp-alpha.cpp:245-248):
construct the `DrmDevice` (topology discovery), construct the buffer
(four-stage acquisition), fill the chessboard (no failure mode), set the
CRTC. -/
def run_core (env : CoreEnv) : Except CoreErr Topology :=
  match (DrmDevice.setup env.dev).2 with
  | .error e => .error (.dev e)
  | .ok topo =>
    match (DrmBuffer.create env.createOk env.addFbOk env.mapOk env.mmapOk).2 with
    | .error e => .error (.buf e)
    | .ok _ =>
      if env.setCrtcOk then .ok topo else .error .bindError

/-- Observable outcome of a `main` run: stdout lines, stderr lines, exit
code. -/
structure ProcOut where
  stdout : List String
  stderr : List String
  exit_code : Int
  deriving DecidableEq, Repr

/-- The instruction line `main` prints on success (src/dp-alpha.cpp:250-252). -/
def success_line (premultiplied : Bool) : String :=
  "If you see a chessboard pattern, " ++
    (if premultiplied then "premultiplied" else "straight") ++
    " alpha blending mode is incorrect."

/-- Embeds `main` (src/dp-alpha.cpp:232-260).  Bad arguments print the usage
lines to stdout and return `-1`; a thrown core error is caught once, printed
as one `Error: <message>` line to stderr, and `main` returns `-1`; on
success the instruction line goes to stdout and `main` returns `0`.
Returns `none` when execution reaches undefined behaviour (an
exception-free `DevFail` marker), which the catch clause cannot
intercept. -/
def dp_main (args : List String) (env : CoreEnv) : Option ProcOut :=
  match parse_args args with
  | none => some ⟨usage_lines, [], -1⟩
  | some prem =>
    match run_core env with
    | .ok _ => some ⟨[success_line prem], [], 0⟩
    | .error e =>
      match e.message with
      | some m => some ⟨[], ["Error: " ++ m], -1⟩
      | none => none

/-- Whether a `BufEv` is one of the three release calls. -/
def BufEv.isRelease : BufEv → Bool
  | .destroyDumb => true
  | .rmFB => true
  | .munmap => true
  | _ => false

theorem applyWrites_append (ws₁ ws₂ : List (Nat × Nat)) (buf : Nat → Nat) :
    applyWrites (ws₁ ++ ws₂) buf = applyWrites ws₂ (applyWrites ws₁ buf) := by
  simp [applyWrites, List.foldl_append]

theorem foldl_flatMap {α β γ : Type} (l : List α) (f : α → List β) (g : γ → β → γ)
    (init : γ) :
    (l.flatMap f).foldl g init = l.foldl (fun c a => (f a).foldl g c) init := by
  induction l generalizing init with
  | nil => rfl
  | cons a rest ih => simp [List.flatMap_cons, List.foldl_append, ih]

/-- `fill_chessboard` is exactly the replay of its write sequence. -/
theorem fill_chessboard_eq_applyWrites (p : Bool) (w h pitch : Nat) (buf : Nat → Nat) :
    DrmBuffer.fill_chessboard p w h pitch buf =
      applyWrites (DrmBuffer.fillWrites p w h pitch) buf := by
  simp only [DrmBuffer.fill_chessboard, DrmBuffer.fillWrites, applyWrites,
    foldl_flatMap, List.foldl_map]

/-- Replaying stores leaves every index that none of them targets unchanged. -/
theorem applyWrites_untouched (ws : List (Nat × Nat)) (buf : Nat → Nat) (i : Nat)
    (h : ∀ iv ∈ ws, iv.1 ≠ i) : applyWrites ws buf i = buf i := by
  induction ws generalizing buf with
  | nil => rfl
  | cons iv rest ih =>
      have hrest : ∀ jv ∈ rest, jv.1 ≠ i := fun jv hjv => h jv (List.mem_cons_of_mem _ hjv)
      have hhd : iv.1 ≠ i := h iv (List.mem_cons_self _ _)
      simp only [applyWrites, List.foldl_cons]
      have := ih (store buf iv.1 iv.2) hrest
      simp only [applyWrites] at this
      rw [this, store]
      simp [Ne.symm hhd]

/-- C1: for every failure point of the four-stage acquisition, every
previously acquired releasable sub-resource is released exactly once, the
releases happen in reverse acquisition order, and no later acquisition call
is attempted; in particular, when framebuffer registration fails the trace
is exactly create-dumb, add-FB, destroy-dumb — the buffer is deallocated
exactly once and neither the map-descriptor call nor mmap occurs. -/
theorem C1_create_unwinds_on_failure :
    ∀ createOk addFbOk mapOk mmapOk : Bool,
      ((DrmBuffer.create createOk addFbOk mapOk mmapOk).2.isOk = false →
        (DrmBuffer.create createOk addFbOk mapOk mmapOk).1.count BufEv.destroyDumb =
            (if createOk then 1 else 0) ∧
        (DrmBuffer.create createOk addFbOk mapOk mmapOk).1.count BufEv.rmFB =
            (if createOk && addFbOk then 1 else 0) ∧
        (DrmBuffer.create createOk addFbOk mapOk mmapOk).1.count BufEv.munmap = 0 ∧
        ((DrmBuffer.create createOk addFbOk mapOk mmapOk).1.filter BufEv.isRelease).Sublist
            [BufEv.munmap, BufEv.rmFB, BufEv.destroyDumb]) ∧
      ((DrmBuffer.create createOk addFbOk mapOk mmapOk).2 = .error .allocError →
        BufEv.addFB ∉ (DrmBuffer.create createOk addFbOk mapOk mmapOk).1 ∧
        BufEv.mapDumb ∉ (DrmBuffer.create createOk addFbOk mapOk mmapOk).1 ∧
        BufEv.mmap ∉ (DrmBuffer.create createOk addFbOk mapOk mmapOk).1) ∧
      ((DrmBuffer.create createOk addFbOk mapOk mmapOk).2 = .error .mapDescriptorError →
        BufEv.mmap ∉ (DrmBuffer.create createOk addFbOk mapOk mmapOk).1) ∧
      (createOk = true → addFbOk = false →
        DrmBuffer.create createOk addFbOk mapOk mmapOk =
          ([BufEv.createDumb, BufEv.addFB, BufEv.destroyDumb], .error .registerError)) := by
  intro createOk addFbOk mapOk mmapOk
  refine ⟨?_, ?_, ?_, ?_⟩ <;> revert createOk addFbOk mapOk mmapOk <;> decide

/-- C2: `DrmBuffer::cleanup` releases in exact reverse acquisition order —
munmap, then remove the framebuffer, then destroy the dumb buffer, each at
most once (the release trace is a sublist of that fixed order) — and each
release is individually guarded by exactly the field its sub-resource
records, so it is skipped when that sub-resource was never established. -/
theorem C2_cleanup_guarded_reverse_order :
    ∀ s : BufState,
      (DrmBuffer.cleanup s).Sublist [BufEv.munmap, BufEv.rmFB, BufEv.destroyDumb] ∧
      (BufEv.munmap ∈ DrmBuffer.cleanup s ↔
        (s.mapped ≠ none ∧ s.mapped ≠ some MAP_FAILED)) ∧
      (BufEv.rmFB ∈ DrmBuffer.cleanup s ↔ s.fb_id ≠ 0) ∧
      (BufEv.destroyDumb ∈ DrmBuffer.cleanup s ↔ s.handle ≠ 0) := by
  intro s
  by_cases h1 : s.mapped ≠ none ∧ s.mapped ≠ some MAP_FAILED <;>
    by_cases h2 : s.fb_id ≠ 0 <;>
      by_cases h3 : s.handle ≠ 0 <;>
        simp [DrmBuffer.cleanup, h1, h2, h3]

/-- C3: destroying a `DrmDevice` frees the encoder descriptor if held, then
the connector descriptor if held, then the resource list if held — the
release trace is a sublist of that fixed order, each guarded by its own
field — and the device handle is closed exactly once, strictly last. -/
theorem C3_device_destructor_order :
    ∀ e c r : Bool,
      (DrmDevice.destructor ⟨e, c, r⟩).count DevEv.closeFd = 1 ∧
      (DrmDevice.destructor ⟨e, c, r⟩).getLast? = some DevEv.closeFd ∧
      DevEv.closeFd ∉ DrmDevice.cleanup ⟨e, c, r⟩ ∧
      (DrmDevice.cleanup ⟨e, c, r⟩).Sublist
          [DevEv.freeEncoder, DevEv.freeConnector, DevEv.freeResources] ∧
      (DevEv.freeEncoder ∈ DrmDevice.cleanup ⟨e, c, r⟩ ↔ e = true) ∧
      (DevEv.freeConnector ∈ DrmDevice.cleanup ⟨e, c, r⟩ ↔ c = true) ∧
      (DevEv.freeResources ∈ DrmDevice.cleanup ⟨e, c, r⟩ ↔ r = true) := by
  decide

/-- Every store of the fill has an index of the form `y * (pitch / 4) + x`
with `x < width`, `y < height`. -/
theorem fillWrites_index_shape (p : Bool) (w h pitch : Nat) :
    ∀ iv ∈ DrmBuffer.fillWrites p w h pitch,
      ∃ x y, x < w ∧ y < h ∧ iv.1 = y * (pitch / 4) + x := by
  intro iv hiv
  simp only [DrmBuffer.fillWrites, List.mem_flatMap, List.mem_map, List.mem_range] at hiv
  obtain ⟨y, hy, x, hx, rfl⟩ := hiv
  exact ⟨x, y, hx, hy, rfl⟩

/-- Every value the fill stores is the grey tile colour or the convention's
light tile colour. -/
theorem fillWrites_value_shape (p : Bool) (w h pitch : Nat) :
    ∀ iv ∈ DrmBuffer.fillWrites p w h pitch,
      iv.2 = 0xff808080 ∨ iv.2 = (if p then 0x80808080 else 0x80ffffff) := by
  intro iv hiv
  simp only [DrmBuffer.fillWrites, List.mem_flatMap, List.mem_map, List.mem_range] at hiv
  obtain ⟨y, hy, x, hx, rfl⟩ := hiv
  by_cases hm : ((x / 64) + (y / 64)) % 2 ≠ 0 <;> simp [hm]

/-- C4: the write `fill_chessboard` performs at in-bounds pixel coordinate
(x, y) stores `0xff808080` when `(x / 64 + y / 64) % 2 = 1` and otherwise
the convention's light colour (`0x80808080` premultiplied, `0x80ffffff`
straight); every written value is one of the two palette colours of its
convention, so the premultiplied fill never writes `0x80ffffff` and the
straight fill never writes `0x80808080`. -/
theorem C4_fill_palette (p : Bool) (w h pitch x y : Nat) (hx : x < w) (hy : y < h) :
    ((y * (pitch / 4) + x,
        if ((x / 64) + (y / 64)) % 2 = 1 then 0xff808080
        else if p then 0x80808080 else 0x80ffffff) ∈ DrmBuffer.fillWrites p w h pitch) ∧
    (∀ iv ∈ DrmBuffer.fillWrites p w h pitch,
        iv.2 = 0xff808080 ∨ iv.2 = (if p then 0x80808080 else 0x80ffffff)) ∧
    (∀ iv ∈ DrmBuffer.fillWrites true w h pitch, iv.2 ≠ 0x80ffffff) ∧
    (∀ iv ∈ DrmBuffer.fillWrites false w h pitch, iv.2 ≠ 0x80808080) := by
  refine ⟨?_, fillWrites_value_shape p w h pitch, ?_, ?_⟩
  · simp only [DrmBuffer.fillWrites, List.mem_flatMap, List.mem_map, List.mem_range]
    refine ⟨y, hy, x, hx, ?_⟩
    rcases Nat.mod_two_eq_zero_or_one ((x / 64) + (y / 64)) with hm | hm <;> simp [hm]
  · intro iv hiv
    rcases fillWrites_value_shape true w h pitch iv hiv with hv | hv <;> simp [hv]
  · intro iv hiv
    rcases fillWrites_value_shape false w h pitch iv hiv with hv | hv <;> simp [hv]

/-- Witness for C4 at the concrete input `p = true`, `w = 65`, `h = 1`,
`pitch = 260`, pixel (64, 0): an odd-parity tile, stored as `0xff808080`. -/
theorem C4_fill_palette_witness :
    64 < 65 ∧ 0 < 1 ∧
    (((0 * (260 / 4) + 64,
        if ((64 / 64) + (0 / 64)) % 2 = 1 then 0xff808080
        else if true then 0x80808080 else 0x80ffffff) ∈ DrmBuffer.fillWrites true 65 1 260) ∧
      (∀ iv ∈ DrmBuffer.fillWrites true 65 1 260,
          iv.2 = 0xff808080 ∨ iv.2 = (if true then 0x80808080 else 0x80ffffff)) ∧
      (∀ iv ∈ DrmBuffer.fillWrites true 65 1 260, iv.2 ≠ 0x80ffffff) ∧
      (∀ iv ∈ DrmBuffer.fillWrites false 65 1 260, iv.2 ≠ 0x80808080)) :=
  ⟨by decide, by decide, C4_fill_palette true 65 1 260 64 0 (by decide) (by decide)⟩

/-- C7: the fill addresses rows by the recorded pitch — every store index has
the form `y * (pitch / 4) + x` with `x < width`, `y < height` — and every
word of the mapped buffer outside those indices, in particular the alignment
padding between `width` words and `pitch / 4` words per row, is left
unchanged. -/
theorem C7_fill_preserves_padding (p : Bool) (w h pitch : Nat) (buf : Nat → Nat)
    (i : Nat) (hi : ¬ ∃ x y, x < w ∧ y < h ∧ i = y * (pitch / 4) + x) :
    DrmBuffer.fill_chessboard p w h pitch buf i = buf i ∧
    ∀ iv ∈ DrmBuffer.fillWrites p w h pitch,
      ∃ x y, x < w ∧ y < h ∧ iv.1 = y * (pitch / 4) + x := by
  refine ⟨?_, fillWrites_index_shape p w h pitch⟩
  rw [fill_chessboard_eq_applyWrites]
  apply applyWrites_untouched
  intro iv hiv hcontra
  obtain ⟨x, y, hx, hy, hix⟩ := fillWrites_index_shape p w h pitch iv hiv
  exact hi ⟨x, y, hx, hy, by rw [← hcontra, hix]⟩

/-- Witness for C7 at the concrete input `w = 2`, `h = 2`, `pitch = 12`
(three words per row, one word of padding): word 2 — the first row's padding
word — keeps its previous value 7. -/
theorem C7_fill_preserves_padding_witness :
    (¬ ∃ x y, x < 2 ∧ y < 2 ∧ 2 = y * (12 / 4) + x) ∧
    (DrmBuffer.fill_chessboard true 2 2 12 (fun _ => 7) 2 = 7 ∧
      ∀ iv ∈ DrmBuffer.fillWrites true 2 2 12,
        ∃ x y, x < 2 ∧ y < 2 ∧ iv.1 = y * (12 / 4) + x) :=
  ⟨fun ⟨x, y, hx, hy, hxy⟩ => by omega,
   C7_fill_preserves_padding true 2 2 12 (fun _ => 7) 2
     (fun ⟨x, y, hx, hy, hxy⟩ => by omega)⟩

/-- When every query succeeds and no queried connector is connected, the scan
examines and frees each descriptor in order and selects nothing. -/
theorem findConnector_all_disconnected (g : Nat → Option Connector) :
    ∀ (ids : List Nat) (conns : List Connector),
      ids.map g = conns.map some →
      (∀ cn ∈ conns, cn.connection = false) →
      DrmDevice.findConnector g ids =
        ((ids.zip conns).flatMap
            (fun pr => [ScanEv.getConnector pr.1 (some pr.2), ScanEv.freeConnector pr.2]),
          .ok none) := by
  intro ids
  induction ids with
  | nil =>
      intro conns hmap _
      cases conns with
      | nil => rfl
      | cons c ct => simp at hmap
  | cons id rest ih =>
      intro conns hmap hdisc
      cases conns with
      | nil => simp at hmap
      | cons c ct =>
          simp only [List.map_cons, List.cons.injEq] at hmap
          obtain ⟨hg, hrest⟩ := hmap
          have hc : c.connection = false := hdisc c (List.mem_cons_self _ _)
          have hct : ∀ cn ∈ ct, cn.connection = false :=
            fun cn hcn => hdisc cn (List.mem_cons_of_mem _ hcn)
          simp [DrmDevice.findConnector, hg, hc, ih ct hrest hct]

/-- The scan selects the first connected connector of the queried list. -/
theorem findConnector_first_connected (g : Nat → Option Connector) :
    ∀ (pre : List Connector) (ids : List Nat) (c : Connector) (post : List Connector),
      ids.map g = (pre ++ c :: post).map some →
      (∀ d ∈ pre, d.connection = false) →
      c.connection = true →
      (DrmDevice.findConnector g ids).2 = .ok (some c) := by
  intro pre
  induction pre with
  | nil =>
      intro ids c post hmap _ hc
      cases ids with
      | nil => simp at hmap
      | cons id rest =>
          simp only [List.nil_append, List.map_cons, List.cons.injEq] at hmap
          obtain ⟨hg, -⟩ := hmap
          simp [DrmDevice.findConnector, hg, hc]
  | cons d dt ih =>
      intro ids c post hmap hpre hc
      cases ids with
      | nil => simp at hmap
      | cons id rest =>
          simp only [List.cons_append, List.map_cons, List.cons.injEq] at hmap
          obtain ⟨hg, hrest⟩ := hmap
          have hd : d.connection = false := hpre d (List.mem_cons_self _ _)
          have hdt : ∀ x ∈ dt, x.connection = false :=
            fun x hx => hpre x (List.mem_cons_of_mem _ hx)
          have htail := ih rest c post hrest hdt hc
          rcases hfr : DrmDevice.findConnector g rest with ⟨t, r⟩
          rw [hfr] at htail
          simp [DrmDevice.findConnector, hg, hd, hfr, htail]

/-- When every query succeeds, the scan ends without the null dereference. -/
theorem findConnector_ok_of_isSome (g : Nat → Option Connector) :
    ∀ ids : List Nat, (∀ id ∈ ids, (g id).isSome) →
      ∃ oc, (DrmDevice.findConnector g ids).2 = .ok oc := by
  intro ids
  induction ids with
  | nil => exact fun _ => ⟨none, rfl⟩
  | cons id rest ih =>
      intro hall
      obtain ⟨c, hc⟩ := Option.isSome_iff_exists.mp (hall id (List.mem_cons_self _ _))
      by_cases hcc : c.connection = true
      · exact ⟨some c, by simp [DrmDevice.findConnector, hc, hcc]⟩
      · obtain ⟨oc, hoc⟩ := ih (fun i hi => hall i (List.mem_cons_of_mem _ hi))
        rcases hfr : DrmDevice.findConnector g rest with ⟨t, r⟩
        rw [hfr] at hoc
        exact ⟨oc, by simp [DrmDevice.findConnector, hc, hcc, hfr, hoc]⟩

/-- A connector the scan selects was returned by one of the queries, and it
is connected. -/
theorem findConnector_selected (g : Nat → Option Connector) :
    ∀ (ids : List Nat) (c : Connector),
      (DrmDevice.findConnector g ids).2 = .ok (some c) →
      (∃ id ∈ ids, g id = some c) ∧ c.connection = true := by
  intro ids
  induction ids with
  | nil => intro c h; simp [DrmDevice.findConnector] at h
  | cons id rest ih =>
      intro c h
      cases hg : g id with
      | none => simp [DrmDevice.findConnector, hg] at h
      | some d =>
          by_cases hd : d.connection = true
          · have hdc : d = c := by
              simpa [DrmDevice.findConnector, hg, hd] using h
            subst hdc
            exact ⟨⟨id, List.mem_cons_self _ _, hg⟩, hd⟩
          · rcases hfr : DrmDevice.findConnector g rest with ⟨t, r⟩
            simp only [DrmDevice.findConnector, hg, hd, hfr] at h
            obtain ⟨⟨id', hid', hgid'⟩, hcc⟩ := ih c (by rw [hfr]; simpa using h)
            exact ⟨⟨id', List.mem_cons_of_mem _ hid', hgid'⟩, hcc⟩

/-- The C eligibility test `possible_crtcs & (1 << i)` is non-zero exactly
when bit `i` of the mask is set. -/
theorem and_shift_ne_zero_iff_testBit (mask i : Nat) :
    mask &&& (1 <<< i) ≠ 0 ↔ mask.testBit i := by
  rw [Nat.one_shiftLeft, Nat.and_two_pow]
  cases h : mask.testBit i <;> simp [h, Nat.pos_iff_ne_zero, pow_ne_zero]

/-- When no listed CRTC's index bit is set, the CRTC loop leaves the id 0. -/
theorem findCrtc_eq_zero (mask : Nat) :
    ∀ (crtcs : List Nat) (k : Nat),
      (∀ i, i < crtcs.length → mask &&& (1 <<< (k + i)) = 0) →
      DrmDevice.findCrtc mask crtcs k = 0 := by
  intro crtcs
  induction crtcs with
  | nil => intro k _; rfl
  | cons c rest ih =>
      intro k h
      have h0 : mask &&& (1 <<< k) = 0 := by
        have := h 0 (by simp)
        simpa using this
      have hrest : ∀ i, i < rest.length → mask &&& (1 <<< (k + 1 + i)) = 0 := by
        intro i hi
        have := h (i + 1) (by simpa using Nat.succ_lt_succ hi)
        rwa [show k + (i + 1) = k + 1 + i by omega] at this
      simp [DrmDevice.findCrtc, h0, ih (k + 1) hrest]

/-- The CRTC loop returns the entry at the first index (from `k`) whose bit
is set in the mask. -/
theorem findCrtc_first_hit (mask : Nat) :
    ∀ (crtcs : List Nat) (i k : Nat), i < crtcs.length →
      mask &&& (1 <<< (k + i)) ≠ 0 →
      (∀ j, j < i → mask &&& (1 <<< (k + j)) = 0) →
      DrmDevice.findCrtc mask crtcs k = crtcs.getD i 0 := by
  intro crtcs
  induction crtcs with
  | nil => intro i k hi _ _; simp at hi
  | cons c rest ih =>
      intro i k hi hbit hbelow
      cases i with
      | zero =>
          have : mask &&& (1 <<< k) ≠ 0 := by simpa using hbit
          simp [DrmDevice.findCrtc, this]
      | succ n =>
          have h0 : mask &&& (1 <<< k) = 0 := by
            have := hbelow 0 (Nat.succ_pos n)
            simpa using this
          have hbit' : mask &&& (1 <<< (k + 1 + n)) ≠ 0 := by
            rwa [show k + 1 + n = k + (n + 1) by omega]
          have hbelow' : ∀ j, j < n → mask &&& (1 <<< (k + 1 + j)) = 0 := by
            intro j hj
            have := hbelow (j + 1) (Nat.succ_lt_succ hj)
            rwa [show k + (j + 1) = k + 1 + j by omega] at this
          have hn : n < rest.length := by simpa using Nat.lt_of_succ_lt_succ hi
          simp [DrmDevice.findCrtc, h0, ih n (k + 1) hn hbit' hbelow']

/-- C5: topology discovery scans connectors in listed order and selects the
first connected one; when no queried connector is connected, the scan trace
is exactly a query/free pair for every examined descriptor (each freed,
none retained) and construction fails with `noDisplayError`. -/
theorem C5_connector_scan (g : Nat → Option Connector) (ge : Nat → Option Encoder)
    (res : Res) (conns : List Connector)
    (hq : res.connectors.map g = conns.map some) :
    ((∀ cn ∈ conns, cn.connection = false) →
      DrmDevice.setup ⟨some res, g, ge⟩ =
        ((res.connectors.zip conns).flatMap
            (fun pr => [ScanEv.getConnector pr.1 (some pr.2), ScanEv.freeConnector pr.2]),
          .error .noDisplayError)) ∧
    (∀ pre c post, conns = pre ++ c :: post →
      (∀ d ∈ pre, d.connection = false) → c.connection = true →
      (DrmDevice.findConnector g res.connectors).2 = .ok (some c)) := by
  constructor
  · intro hnone
    have h := findConnector_all_disconnected g res.connectors conns hq hnone
    simp [DrmDevice.setup, h]
  · intro pre c post hsplit hpre hc
    exact findConnector_first_connected g pre res.connectors c post
      (by rw [hq, hsplit]) hpre hc

/-- Witness for C5 at a concrete topology: one listed connector, queried
successfully, in disconnected state. -/
theorem C5_connector_scan_witness :
    ((∀ cn ∈ [Connector.mk 7 false [] 3], cn.connection = false) →
      DrmDevice.setup ⟨some ⟨[5], [1]⟩, fun _ => some ⟨7, false, [], 3⟩, fun _ => none⟩ =
        (([5].zip [Connector.mk 7 false [] 3]).flatMap
            (fun pr => [ScanEv.getConnector pr.1 (some pr.2), ScanEv.freeConnector pr.2]),
          .error .noDisplayError)) ∧
    (∀ pre c post, [Connector.mk 7 false [] 3] = pre ++ c :: post →
      (∀ d ∈ pre, d.connection = false) → c.connection = true →
      (DrmDevice.findConnector (fun _ => some ⟨7, false, [], 3⟩) [5]).2 = .ok (some c)) :=
  C5_connector_scan (fun _ => some ⟨7, false, [], 3⟩) (fun _ => none)
    ⟨[5], [1]⟩ [Connector.mk 7 false [] 3] rfl

/-- C6: once discovery reaches the encoder, the timing generator is the
encoder's own `crtc_id` when that is non-zero; otherwise it is the first
entry of the global CRTC list whose index bit is set in the encoder's
`possible_crtcs` bitmask; when neither yields a non-zero CRTC id,
construction fails with `noCrtcError`. -/
theorem C6_crtc_resolution (g : Nat → Option Connector) (ge : Nat → Option Encoder)
    (res : Res) (conn : Connector) (mode : ModeInfo) (mrest : List ModeInfo)
    (enc : Encoder)
    (hscan : (DrmDevice.findConnector g res.connectors).2 = .ok (some conn))
    (hmodes : conn.modes = mode :: mrest)
    (henc : ge conn.encoder_id = some enc) :
    (enc.crtc_id ≠ 0 →
      (DrmDevice.setup ⟨some res, g, ge⟩).2 = .ok ⟨conn, mode, enc, enc.crtc_id⟩) ∧
    (enc.crtc_id = 0 →
      (∀ i, i < res.crtcs.length → ¬ enc.possible_crtcs.testBit i) →
      (DrmDevice.setup ⟨some res, g, ge⟩).2 = .error .noCrtcError) ∧
    (enc.crtc_id = 0 → ∀ i, i < res.crtcs.length →
      enc.possible_crtcs.testBit i →
      (∀ j, j < i → ¬ enc.possible_crtcs.testBit j) →
      (DrmDevice.setup ⟨some res, g, ge⟩).2 =
        (if res.crtcs.getD i 0 = 0 then .error .noCrtcError
         else .ok ⟨conn, mode, enc, res.crtcs.getD i 0⟩)) := by
  rcases hfr : DrmDevice.findConnector g res.connectors with ⟨t, rc⟩
  rw [hfr] at hscan
  simp only at hscan
  subst hscan
  refine ⟨?_, ?_, ?_⟩
  · intro hcr
    simp [DrmDevice.setup, hfr, hmodes, henc, hcr]
  · intro hcr hnone
    have hz : DrmDevice.findCrtc enc.possible_crtcs res.crtcs 0 = 0 := by
      apply findCrtc_eq_zero
      intro i hi
      have := hnone i hi
      rw [← and_shift_ne_zero_iff_testBit] at this
      simpa using not_not.mp (fun hne => this (by simpa using hne))
    simp [DrmDevice.setup, hfr, hmodes, henc, hcr, hz]
  · intro hcr i hi hbit hbelow
    have hhit : DrmDevice.findCrtc enc.possible_crtcs res.crtcs 0 = res.crtcs.getD i 0 := by
      apply findCrtc_first_hit enc.possible_crtcs res.crtcs i 0 hi
      · simpa using (and_shift_ne_zero_iff_testBit enc.possible_crtcs i).mpr hbit
      · intro j hj
        have := hbelow j hj
        rw [← and_shift_ne_zero_iff_testBit] at this
        simpa using not_not.mp (fun hne => this (by simpa using hne))
    simp only [DrmDevice.setup, hfr, hmodes, henc, hcr, hhit]
    simp
    split <;> rfl

/-- Witness for C6 at a concrete topology: one connected connector with one
mode, an encoder with no pre-designated CRTC and eligibility bit 0 set, one
listed CRTC with the non-zero id 4. -/
theorem C6_crtc_resolution_witness :
    (Encoder.crtc_id ⟨0, 1⟩ ≠ 0 →
      (DrmDevice.setup ⟨some ⟨[9], [4]⟩, fun _ => some ⟨2, true, [⟨1920, 1080⟩], 3⟩,
          fun _ => some ⟨0, 1⟩⟩).2 =
        .ok ⟨⟨2, true, [⟨1920, 1080⟩], 3⟩, ⟨1920, 1080⟩, ⟨0, 1⟩, Encoder.crtc_id ⟨0, 1⟩⟩) ∧
    (Encoder.crtc_id ⟨0, 1⟩ = 0 →
      (∀ i, i < (Res.crtcs ⟨[9], [4]⟩).length → ¬ (Encoder.possible_crtcs ⟨0, 1⟩).testBit i) →
      (DrmDevice.setup ⟨some ⟨[9], [4]⟩, fun _ => some ⟨2, true, [⟨1920, 1080⟩], 3⟩,
          fun _ => some ⟨0, 1⟩⟩).2 = .error .noCrtcError) ∧
    (Encoder.crtc_id ⟨0, 1⟩ = 0 → ∀ i, i < (Res.crtcs ⟨[9], [4]⟩).length →
      (Encoder.possible_crtcs ⟨0, 1⟩).testBit i →
      (∀ j, j < i → ¬ (Encoder.possible_crtcs ⟨0, 1⟩).testBit j) →
      (DrmDevice.setup ⟨some ⟨[9], [4]⟩, fun _ => some ⟨2, true, [⟨1920, 1080⟩], 3⟩,
          fun _ => some ⟨0, 1⟩⟩).2 =
        (if (Res.crtcs ⟨[9], [4]⟩).getD i 0 = 0 then .error .noCrtcError
         else .ok ⟨⟨2, true, [⟨1920, 1080⟩], 3⟩, ⟨1920, 1080⟩, ⟨0, 1⟩,
           (Res.crtcs ⟨[9], [4]⟩).getD i 0⟩)) :=
  C6_crtc_resolution (fun _ => some ⟨2, true, [⟨1920, 1080⟩], 3⟩) (fun _ => some ⟨0, 1⟩)
    ⟨[9], [4]⟩ ⟨2, true, [⟨1920, 1080⟩], 3⟩ ⟨1920, 1080⟩ [] ⟨0, 1⟩
    (by decide) rfl rfl

/-- C10: the embedding of topology discovery is partial — there are
environments in which the source dereferences a null connector descriptor,
and environments in which it reads a first mode that does not exist — and
those two outcomes are unreachable exactly under the unstated preconditions
that every per-connector query succeeds and that any connected connector a
query returns advertises at least one mode. -/
theorem C10_unchecked_reads (env : DevEnv) (res : Res)
    (hres : env.resources = some res)
    (hq : ∀ id ∈ res.connectors, (env.getConn id).isSome)
    (hm : ∀ id ∈ res.connectors, ∀ c, env.getConn id = some c →
            c.connection = true → c.modes ≠ []) :
    ((DrmDevice.setup env).2 ≠ .error .nullConnectorDeref ∧
     (DrmDevice.setup env).2 ≠ .error .emptyModesRead) ∧
    (∃ badEnv : DevEnv, (DrmDevice.setup badEnv).2 = .error .nullConnectorDeref) ∧
    (∃ badEnv : DevEnv, (DrmDevice.setup badEnv).2 = .error .emptyModesRead) := by
  refine ⟨?_, ?_, ?_⟩
  · obtain ⟨oc, hoc⟩ := findConnector_ok_of_isSome env.getConn res.connectors hq
    rcases hfr : DrmDevice.findConnector env.getConn res.connectors with ⟨t, rc⟩
    rw [hfr] at hoc
    simp only at hoc
    subst hoc
    cases oc with
    | none => simp [DrmDevice.setup, hres, hfr]
    | some conn =>
        obtain ⟨⟨id, hid, hgid⟩, hcc⟩ :=
          findConnector_selected env.getConn res.connectors conn (by rw [hfr])
        have hmodes : conn.modes ≠ [] := hm id hid conn hgid hcc
        cases hms : conn.modes with
        | nil => exact absurd hms hmodes
        | cons mode mrest =>
            cases henc : env.getEnc conn.encoder_id with
            | none => simp [DrmDevice.setup, hres, hfr, hms, henc]
            | some enc =>
                simp only [DrmDevice.setup, hres, hfr, hms, henc]
                split
                · simp
                · split <;> simp
  · refine ⟨⟨some ⟨[1], []⟩, fun _ => none, fun _ => none⟩, ?_⟩
    rfl
  · refine ⟨⟨some ⟨[1], []⟩, fun _ => some ⟨1, true, [], 0⟩, fun _ => none⟩, ?_⟩
    rfl

/-- Witness for C10 at a concrete healthy topology: one listed connector,
queried successfully, connected, with one advertised mode. -/
theorem C10_unchecked_reads_witness :
    ((DrmDevice.setup ⟨some ⟨[1], [4]⟩, fun _ => some ⟨1, true, [⟨640, 480⟩], 2⟩,
        fun _ => some ⟨0, 1⟩⟩).2 ≠ .error .nullConnectorDeref ∧
     (DrmDevice.setup ⟨some ⟨[1], [4]⟩, fun _ => some ⟨1, true, [⟨640, 480⟩], 2⟩,
        fun _ => some ⟨0, 1⟩⟩).2 ≠ .error .emptyModesRead) ∧
    (∃ badEnv : DevEnv, (DrmDevice.setup badEnv).2 = .error .nullConnectorDeref) ∧
    (∃ badEnv : DevEnv, (DrmDevice.setup badEnv).2 = .error .emptyModesRead) :=
  C10_unchecked_reads
    ⟨some ⟨[1], [4]⟩, fun _ => some ⟨1, true, [⟨640, 480⟩], 2⟩, fun _ => some ⟨0, 1⟩⟩
    ⟨[1], [4]⟩ rfl (by decide)
    (fun id hid c hc hconn => by cases hc; simp)

/-- Counterexample to the claim that only the exact argument values `p` and
`s` are accepted and that the usage message has two lines: the argument
`"px"` is accepted (selecting premultiplied) because only its first
character is inspected, and the usage message has three lines, not two. -/
theorem C8_cli_counterexample :
    parse_args ["px"] = some true ∧ usage_lines.length = 3 ∧ usage_lines.length ≠ 2 := by
  refine ⟨?_, rfl, by decide⟩
  rfl

/-- C8 (amended): the program accepts exactly one argument and inspects only
its first character — `p` selects premultiplied, `s` selects straight; for
any other argument count, or an argument whose first character is neither
(including an empty argument), it prints the three-line usage message to
standard output and `main` returns the non-zero status -1. -/
theorem C8_cli_amended (args : List String) (env : CoreEnv) :
    (∀ a chs, args = [a] → a.data = 'p' :: chs → parse_args args = some true) ∧
    (∀ a chs, args = [a] → a.data = 's' :: chs → parse_args args = some false) ∧
    (args.length ≠ 1 → parse_args args = none) ∧
    (∀ a, args = [a] →
      (∀ chs, a.data ≠ 'p' :: chs) → (∀ chs, a.data ≠ 's' :: chs) →
      parse_args args = none) ∧
    (parse_args args = none →
      dp_main args env = some ⟨usage_lines, [], -1⟩ ∧
      usage_lines.length = 3 ∧ (-1 : Int) ≠ 0) := by
  refine ⟨?_, ?_, ?_, ?_, ?_⟩
  · intro a chs h1 h2
    subst h1
    simp [parse_args, h2]
  · intro a chs h1 h2
    subst h1
    simp [parse_args, h2]
  · intro h
    cases args with
    | nil => rfl
    | cons a rest =>
        cases rest with
        | nil => exact absurd rfl h
        | cons b rest2 => rfl
  · intro a h hp hs
    subst h
    simp only [parse_args]
  · intro h
    exact ⟨by simp [dp_main, h], rfl, by decide⟩

/-- C9: when the arguments parse and the core fails with a thrown error, the
top-level catch prints exactly one `Error: <message>` diagnostic line to
standard error, nothing to standard output, and `main` returns the non-zero
status -1 — the error is reported exactly once and never swallowed. -/
theorem C9_single_error_line (args : List String) (env : CoreEnv) (prem : Bool)
    (e : CoreErr) (m : String)
    (hp : parse_args args = some prem) (hr : run_core env = .error e)
    (hm : e.message = some m) :
    dp_main args env = some ⟨[], ["Error: " ++ m], -1⟩ ∧
    (∀ o, dp_main args env = some o →
      o.stdout = [] ∧ o.stderr = ["Error: " ++ m] ∧ o.exit_code ≠ 0) := by
  have hmain : dp_main args env = some ⟨[], ["Error: " ++ m], -1⟩ := by
    simp [dp_main, hp, hr, hm]
  refine ⟨hmain, ?_⟩
  intro o ho
  rw [hmain] at ho
  cases ho
  exact ⟨rfl, rfl, by simp⟩

/-- Witness for C9 at a concrete run: arguments `["p"]` and a kernel that
refuses the resource query, so topology discovery throws. -/
theorem C9_single_error_line_witness :
    dp_main ["p"] ⟨⟨none, fun _ => none, fun _ => none⟩, true, true, true, true, true⟩ =
      some ⟨[], ["Error: " ++ "Failed to get DRM resources"], -1⟩ ∧
    (∀ o, dp_main ["p"] ⟨⟨none, fun _ => none, fun _ => none⟩, true, true, true, true, true⟩ =
        some o →
      o.stdout = [] ∧ o.stderr = ["Error: " ++ "Failed to get DRM resources"] ∧
        o.exit_code ≠ 0) :=
  C9_single_error_line ["p"] ⟨⟨none, fun _ => none, fun _ => none⟩, true, true, true, true, true⟩
    true (.dev .resourceQueryError) "Failed to get DRM resources" rfl rfl rfl

end DpAlpha
